import Mathlib

/-!
Verification of the vote-benchmark orchestration driver
(`benchmarks/orchestration/src/vote.rs`).

The development shallowly embeds the decision logic of `vote.rs`:

* the per-line classification of client output (lines 196-234),
* the single-probe state machine `one` runs for each target
  (lines 104-368), driven by an explicit script of phase outcomes,
* the exploration loop around the searcher (lines 89-101 and 392-394),
* the output-artifact filename stem (lines 106-110),
* the `cliff` searcher strategies, which are consumed by `vote.rs` through
  the `CliffSearch` trait but whose module is not among the sources;
  they are reconstructed from the specification.

Machine floats (`f64`) appear only in the throughput check and in
`target_per_client`; both are modelled exactly: the parsed rate is kept as
an integer mantissa with a decimal exponent, and the 5% comparison is done
in exact integer arithmetic (for every rate the benchmark prints, the f64
computation and the exact one agree on the strict comparison used here).
-/

/-! ## Character-level utilities mirroring Rust string handling -/

/-- Rust `str::split_whitespace`: maximal runs of non-whitespace characters. -/

def splitWSAux : List Char → List Char → List (List Char)
  | [], acc => if acc.isEmpty then [] else [acc.reverse]
  | c :: rest, acc =>
    if c.isWhitespace then
      if acc.isEmpty then splitWSAux rest [] else acc.reverse :: splitWSAux rest []
    else splitWSAux rest (c :: acc)

/-- Whitespace-separated tokens of a line, as in `line.split_whitespace()`. -/

def splitWS (cs : List Char) : List (List Char) := splitWSAux cs []

/-- Digit run to a number: `none` as soon as a non-digit appears. -/

def parseDigitsAux : List Char → ℕ → Option ℕ
  | [], acc => some acc
  | c :: rest, acc =>
    if c.isDigit then parseDigitsAux rest (10 * acc + (c.toNat - 48)) else none

/-- Nonempty all-digit token to a number. -/

def parseDigits : List Char → Option ℕ
  | [] => none
  | cs => parseDigitsAux cs 0

/-- Rust `str::parse::<u32>()`: optional leading `+`, digits, value below `2^32`. -/

def parseU32 (cs : List Char) : Option ℕ :=
  let body := match cs with
    | '+' :: rest => rest
    | _ => cs
  match parseDigits body with
  | some n => if n ≤ 4294967295 then some n else none
  | none => none

/-- An exactly-represented decimal number `mant / 10 ^ exp`, standing in for
the `f64` the Rust code parses the throughput rate into. -/

structure Dec where
  mant : ℤ
  exp : ℕ
deriving DecidableEq, Repr

/-- The rational value of a parsed rate. -/

def Dec.toRat (d : Dec) : ℚ := (d.mant : ℚ) / 10 ^ d.exp

/-- Rust `str::parse::<f64>()`, modelled on plain decimal literals (optional sign,
integer digits, optional fractional digits) by the exact decimal value.
Exponent, `inf` and `nan` forms are not modelled; every rate the benchmark
prints is a plain decimal. -/

def parseDec (cs : List Char) : Option Dec :=
  let signedBody : ℤ × List Char := match cs with
    | '+' :: r => (1, r)
    | '-' :: r => (-1, r)
    | _ => (1, cs)
  match signedBody.2.splitOn '.' with
  | [ip] =>
    match parseDigits ip with
    | some n => some ⟨signedBody.1 * n, 0⟩
    | none => none
  | [ip, fp] =>
    if ip.isEmpty && fp.isEmpty then none
    else
      match parseDigitsAux ip 0, parseDigitsAux fp 0 with
      | some n, some f =>
        some ⟨signedBody.1 * (n * 10 ^ fp.length + f), fp.length⟩
      | _, _ => none
  | _ => none

/-- Rust `lhs.starts_with(rhs)` on character lists. -/

def hasPrefixChars : List Char → List Char → Bool
  | [], _ => true
  | _ :: _, [] => false
  | p :: ps, c :: cc => p == c && hasPrefixChars ps cc

/-! ## Line classification (vote.rs lines 196-234) -/

/-- The typed outcome of classifying one line of client output.
`panicked` marks inputs on which the Rust code would panic via `unwrap()`
(a whitespace-only data line, or a throughput header whose trailing field
does not parse as a float). -/

inductive LineEvent where
  | dataLine (endpoint : List Char) (pct sjrn : ℕ) (over : Bool)
  | badLine
  | throughput (rate : Dec) (over : Bool)
  | comment
  | panicked
deriving DecidableEq, Repr

/-- vote.rs lines 227-229: `target_per_client as f64 - rate > 0.05 * target_per_client
as f64`, in exact arithmetic (both sides multiplied by `100 * 10 ^ rate.exp`). -/

def lowThroughputCheck (tpc : ℕ) (rate : Dec) : Bool :=
  100 * ((tpc : ℤ) * 10 ^ rate.exp - rate.mant) > 5 * (tpc : ℤ) * 10 ^ rate.exp

/-- vote.rs lines 196-220: a line not starting with `#`. The first three
whitespace fields are endpoint, percentile and sojourn time; if the latter
two parse as `u32`, the line is a data line, overloaded (high sojourn
latency) when `pct == 50 && (sjrn > 200_000 || sjrn == 0)`. -/

def classifyData (toks : List (List Char)) : LineEvent :=
  match toks with
  | [] => .panicked
  | [_] => .badLine
  | [_, _] => .badLine
  | e :: p :: s :: _ =>
    match parseU32 p, parseU32 s with
    | some pct, some sjrn =>
      .dataLine e pct sjrn (pct == 50 && (decide (200000 < sjrn) || sjrn == 0))
    | _, _ => .badLine

/-- vote.rs lines 221-234: a `#` line. The two throughput headers are
recognized by prefix; the rate is the last whitespace field, and the line is
overloaded (low throughput) when the rate falls more than 5% short of
`target_per_client`. -/

def classifyHash (tpc : ℕ) (cs : List Char) : LineEvent :=
  if hasPrefixChars "# generated ops/s".data cs || hasPrefixChars "# actual ops/s".data cs then
    match (splitWS cs).getLast? with
    | none => .panicked
    | some tok =>
      match parseDec tok with
      | some rate => .throughput rate (lowThroughputCheck tpc rate)
      | none => .panicked
  else .comment

/-- vote.rs lines 196-234: classification of one client-output line, keyed on
`line.starts_with('#')`. -/

def classifyLine (tpc : ℕ) (line : String) : LineEvent :=
  match line.data with
  | '#' :: rest => classifyHash tpc ('#' :: rest)
  | cs => classifyData (splitWS cs)

/-! ## The single-probe state machine (vote.rs lines 104-368) -/

/-- Overload reason codes. Each corresponds to one `targets.overloaded()`
call site in vote.rs: high sojourn latency (line 214), low throughput
(line 231), missing output (line 255), benchmark process failure (line 273),
prime failure (line 146). -/

inductive Signal where
  | HighLatency
  | LowThroughput
  | MissingOutput
  | ProcessFailure
  | PrimeFailure
deriving DecidableEq, Repr

/-- Mutable state of the output-streaming loop (vote.rs lines 185-236):
overload signals raised so far, the shared `got_lines` flag, and how many
client lines were read and classified. -/

structure StreamAcc where
  overs : List Signal
  got : Bool
  processed : ℕ
deriving DecidableEq, Repr

/-- Effect of one classified line on the streaming state (vote.rs lines
196-234): a parsed data line sets `got_lines` and raises `HighLatency` when
overloaded; a recognized throughput line raises `LowThroughput` when the rate
falls short; comments and unparseable lines only get logged. -/

def applyEv (ev : LineEvent) (a : StreamAcc) : StreamAcc :=
  match ev with
  | .dataLine _ _ _ over =>
    { a with
      got := true
      processed := a.processed + 1
      overs := if over then a.overs ++ [.HighLatency] else a.overs }
  | .badLine => { a with processed := a.processed + 1 }
  | .throughput _ over =>
    { a with
      processed := a.processed + 1
      overs := if over then a.overs ++ [.LowThroughput] else a.overs }
  | .comment => { a with processed := a.processed + 1 }
  | .panicked => a

/-- How the `fin` future of vote.rs lines 186-239 ends inside the
`tokio::select!` of lines 241-251: it drains every line (`finished`), the
`exit.recv()` arm wins first (`cancelled`), a line read fails (`readErr`,
line 192), or a line makes the code panic. -/

inductive StreamOut where
  | finished (a : StreamAcc)
  | cancelled (a : StreamAcc)
  | readErr (a : StreamAcc)
  | panicked (a : StreamAcc)
deriving DecidableEq, Repr

/-- vote.rs lines 186-251: sequentially drain the clients' concatenated
output. The script decides the `select!` race by saying after how many
processed lines cancellation preempts the stream (`c`) and after how many a
read error occurs (`r`); `none` means never. -/

def runStream (tpc : ℕ) : Option ℕ → Option ℕ → List String → StreamAcc → StreamOut
  | _, _, [], a => .finished a
  | c, r, l :: ls, a =>
    if c = some 0 then .cancelled a
    else if r = some 0 then .readErr a
    else
      match classifyLine tpc l with
      | .panicked => .panicked a
      | ev => runStream tpc (c.map (· - 1)) (r.map (· - 1)) ls (applyEv ev a)

/-- One remote client process of a probe: the stdout lines it emits and
whether its exit status is a success. -/

structure ClientRun where
  lines : List String
  exitOk : Bool
deriving DecidableEq, Repr

/-- The script of one probe: the outcome of every external interaction of
vote.rs lines 104-368, in program order. `…Ok` fields are `?`-propagating
infrastructure steps; `exit…` fields are the values the cancellation token
shows at the corresponding check; `cancelAfter`/`readErrAfter` resolve the
streaming race as in `runStream`. -/

structure ProbeScript where
  serverSpawnOk : Bool
  primeSpawnOk : Bool
  primeStatusOk : Bool
  exitAfterPrime : Bool
  spawnOk : Bool
  createLogOk : Bool
  cancelAfter : Option ℕ
  readErrAfter : Option ℕ
  exitAfterFin : Bool
  clients : List ClientRun
  waitOk : Bool
  metaOk : Bool
  histOk : Bool
  statsOk : Bool
  stopOk : Bool
deriving DecidableEq, Repr

/-- The client output lines a probe streams, client after client, as in the
`for bench in &mut benches` loop of vote.rs line 187. -/

def ProbeScript.allLines (sc : ProbeScript) : List String :=
  (sc.clients.map (·.lines)).flatten

/-- Observable outcome of one probe: the overload signals raised (in order),
the lines processed, the shared `got_lines` flag, which artifacts were
produced, how many times `crate::server::stop` ran, whether the probe broke
out because of cancellation, whether it panicked, and whether the `async`
block of vote.rs line 104 returned `Ok`. -/

structure ProbeResult where
  overloads : List Signal
  processed : ℕ
  gotLines : Bool
  logCreated : Bool
  histsSaved : List ℕ
  statsWritten : Bool
  serverStops : ℕ
  aborted : Bool
  panicked : Bool
  ok : Bool
deriving DecidableEq, Repr

/-- The all-false, nothing-happened probe outcome. -/

def ProbeResult.base : ProbeResult :=
  { overloads := []
    processed := 0
    gotLines := false
    logCreated := false
    histsSaved := []
    statsWritten := false
    serverStops := 0
    aborted := false
    panicked := false
    ok := false }

/-- vote.rs lines 104-368: one capacity probe at `target_per_client = tpc`,
with every external outcome fixed by the script. Each early
`ProbeResult.base` return is a `?` that propagates an infrastructure error
out of the `async` block, skipping the server-stop of line 362; every exit
from the labelled `'run` block instead falls through to it. -/

def runProbe (tpc : ℕ) (sc : ProbeScript) : ProbeResult :=
  if !sc.serverSpawnOk then ProbeResult.base
  else if !sc.primeSpawnOk then ProbeResult.base
  else if !sc.primeStatusOk then
    { ProbeResult.base with
      overloads := [.PrimeFailure]
      serverStops := 1
      ok := sc.stopOk }
  else if sc.exitAfterPrime then
    { ProbeResult.base with
      serverStops := 1
      aborted := true
      ok := sc.stopOk }
  else if !sc.spawnOk then ProbeResult.base
  else if !sc.createLogOk then ProbeResult.base
  else
    match runStream tpc sc.cancelAfter sc.readErrAfter sc.allLines ⟨[], false, 0⟩ with
    | .panicked a =>
      { ProbeResult.base with
        overloads := a.overs
        processed := a.processed
        gotLines := a.got
        logCreated := true
        panicked := true }
    | .readErr a =>
      { ProbeResult.base with
        overloads := a.overs
        processed := a.processed
        gotLines := a.got
        logCreated := true }
    | .cancelled a =>
      { ProbeResult.base with
        overloads := a.overs
        processed := a.processed
        gotLines := a.got
        logCreated := true
        serverStops := 1
        aborted := true
        ok := sc.stopOk }
    | .finished a =>
      if sc.exitAfterFin then
        { ProbeResult.base with
          overloads := a.overs
          processed := a.processed
          gotLines := a.got
          logCreated := true
          serverStops := 1
          aborted := true
          ok := sc.stopOk }
      else
        let o1 := if !a.got then a.overs ++ [.MissingOutput] else a.overs
        if !sc.waitOk then
          { ProbeResult.base with
            overloads := o1
            processed := a.processed
            gotLines := a.got
            logCreated := true }
        else
          let o2 := o1 ++ (sc.clients.filter (fun c => !c.exitOk)).map (fun _ => Signal.ProcessFailure)
          if !sc.metaOk then
            { ProbeResult.base with
              overloads := o2
              processed := a.processed
              gotLines := a.got
              logCreated := true }
          else if !sc.histOk then
            { ProbeResult.base with
              overloads := o2
              processed := a.processed
              gotLines := a.got
              logCreated := true }
          else
            let hists := (List.range sc.clients.length).filter
              (fun i => ((sc.clients[i]?).map (·.exitOk)).getD false)
            if sc.clients.all (·.exitOk) then
              if !sc.statsOk then
                { ProbeResult.base with
                  overloads := o2
                  processed := a.processed
                  gotLines := a.got
                  logCreated := true
                  histsSaved := hists }
              else
                { ProbeResult.base with
                  overloads := o2
                  processed := a.processed
                  gotLines := a.got
                  logCreated := true
                  histsSaved := hists
                  statsWritten := true
                  serverStops := 1
                  ok := sc.stopOk }
            else
              { ProbeResult.base with
                overloads := o2
                processed := a.processed
                gotLines := a.got
                logCreated := true
                histsSaved := hists
                serverStops := 1
                ok := sc.stopOk }

/-- Whether a line is classified as a parsed data line (the condition under
which vote.rs line 206 sets `got_lines`). -/

def isDataLine (tpc : ℕ) (l : String) : Bool :=
  match classifyLine tpc l with
  | .dataLine _ _ _ _ => true
  | _ => false

/-- One iteration of the streaming loop body on one line. -/

def stepAcc (tpc : ℕ) (a : StreamAcc) (l : String) : StreamAcc :=
  applyEv (classifyLine tpc l) a

/-- The streaming state after classifying a list of lines in order. -/

def foldLines (tpc : ℕ) (ls : List String) (a : StreamAcc) : StreamAcc :=
  ls.foldl (stepAcc tpc) a

/-- A probe script in which every external interaction succeeds, no overload
arises from exit codes, and cancellation never fires; only the client output
varies. Used to instantiate theorems at concrete inputs. -/

def cleanScript (clients : List ClientRun) : ProbeScript :=
  { serverSpawnOk := true
    primeSpawnOk := true
    primeStatusOk := true
    exitAfterPrime := false
    spawnOk := true
    createLogOk := true
    cancelAfter := none
    readErrAfter := none
    exitAfterFin := false
    clients := clients
    waitOk := true
    metaOk := true
    histOk := true
    statsOk := true
    stopOk := true }

/-! ## The exploration loop (vote.rs lines 40, 89-101, 392-394) -/

/-- Net effect of one probe as the loop sees it. `success`: ran, no overload
raised. `overload`: at least one `targets.overloaded()` ran, so
`successful_target` was taken. `aborted`: the probe broke out on the
cancellation signal without raising an overload, leaving `successful_target`
set. `err`: an error propagated out of the probe (`?` at vote.rs line 368).
`notRun`: the loop yielded the target but observed the exit flag before the
probe started (lines 98-101). -/

inductive Verdict where
  | success
  | overload
  | aborted
  | err
  | notRun
deriving DecidableEq, Repr

/-- Verdict the exploration loop extracts from a probe outcome. Overload
signals take precedence over the cancellation break because every overload
site already took `successful_target`. A panic is modelled as `err` at the
loop level: either way no further iteration runs. -/

def verdictOf (r : ProbeResult) : Verdict :=
  if !r.ok then .err
  else if !r.overloads.isEmpty then .overload
  else if r.aborted then .aborted
  else .success

/-- Outcome of `one`: `ok v` is `Ok(last_good_target)` (vote.rs line 394),
`err` a propagated `Report`; `fuelOut` only marks exhaustion of the model's
step budget. -/

inductive ExploreOut where
  | ok (lastGood : ℕ)
  | err
  | fuelOut
deriving DecidableEq, Repr

/-- vote.rs lines 89-101 with the probe abstracted to its verdict. `next` and
`onOver` are the two `CliffSearch` operations of the boxed searcher (lines
84-88); `probe i t` is the verdict of iteration `i`'s probe at target `t`;
`exitAt i` is the value `*exit.borrow()` shows at the top of iteration `i`.
Following lines 92-96, each iteration first commits the pending
`successful_target` into `last_good_target` (`succ.getD lastGood`), then
makes the new target pending, checks the exit flag, and runs the probe;
overload sites take the pending target. Returns the trace of yielded targets
with verdicts and the loop outcome. Multiple `overloaded()` calls inside one
probe are modelled as one `onOver` application; both searchers are
insensitive to the difference. -/

def exploreAux {σ : Type} (next : σ → Option (ℕ × σ)) (onOver : σ → σ)
    (probe : ℕ → ℕ → Verdict) (exitAt : ℕ → Bool) :
    ℕ → σ → Option ℕ → ℕ → ℕ → List (ℕ × Verdict) × ExploreOut
  | 0, _, _, _, _ => ([], .fuelOut)
  | fuel + 1, s, succ, lastGood, i =>
    match next s with
    | none => ([], .ok lastGood)
    | some (t, s') =>
      if exitAt i then ([(t, .notRun)], .ok (succ.getD lastGood))
      else
        match probe i t with
        | .err => ([(t, .err)], .err)
        | v =>
          let rest := exploreAux next onOver probe exitAt fuel
            (if v = .overload then onOver s' else s')
            (if v = .overload then none else some t)
            (succ.getD lastGood) (i + 1)
          ((t, v) :: rest.1, rest.2)

/-- The whole exploration of one experiment tuple: `last_good_target`
starts at 0 (vote.rs line 40) and `successful_target` at `None`. -/

def explore {σ : Type} (next : σ → Option (ℕ × σ)) (onOver : σ → σ)
    (probe : ℕ → ℕ → Verdict) (exitAt : ℕ → Bool) (fuel : ℕ) (s : σ) :
    List (ℕ × Verdict) × ExploreOut :=
  exploreAux next onOver probe exitAt fuel s none 0 0

/-- Modelled from the spec: the `cliff` module is not among the sources under
review — vote.rs consumes it only through the `CliffSearch` trait (lines
84-88). Per §4.1, `LoadIterator` replays a fixed caller-supplied list of
targets exactly; its state is the list of targets not yet yielded. -/

def loadIterNext (l : List ℕ) : Option (ℕ × List ℕ) :=
  match l with
  | [] => none
  | t :: rest => some (t, rest)

/-- Modelled from the spec: `LoadIterator` ignores `overloaded()` feedback
for sequencing. -/

def loadIterOver (l : List ℕ) : List ℕ := l

/-- One step of replaying the `last_good_target` bookkeeping over the yield
trace: first commit the pending target, then the entry's target becomes
pending unless its probe raised an overload (or ended the loop). -/

def commitStep (p : ℕ × Option ℕ) (e : ℕ × Verdict) : ℕ × Option ℕ :=
  (p.2.getD p.1,
    match e.2 with
    | .overload => none
    | .err => none
    | _ => some e.1)

/-- The value `last_good_target` holds after a yield trace: the pending
target of the final entry is never committed. -/

def calcLastGood (tr : List (ℕ × Verdict)) : ℕ :=
  (tr.foldl commitStep (0, none)).1

/-- vote.rs line 111: `(target as f64 / nclients as f64).ceil() as usize`,
i.e. ceiling division — exact in f64 for the magnitudes involved. -/

def targetPerClient (target nclients : ℕ) : ℕ := (target + nclients - 1) / nclients

/-! ## The cliff searcher (modelled from the spec) and the filename stem -/

/-- Modelled from the spec: the `cliff` module is missing from the sources
under review — vote.rs consumes `ExponentialCliffSearcher` only through the
`CliffSearch` trait (lines 84-88). Per §3 and §4.1 of the spec: `lower` is
the last known-good target (starting at the configured floor), `upper` the
first known-bad target (`none` while growing), `last` the candidate most
recently yielded and awaiting feedback, `overFlag` whether `overloaded()`
was called since that yield, `done` whether the search converged; `ceiling`
and the convergence tolerance `tol` are configuration. -/

structure ExpCliff where
  ceiling : ℕ
  tol : ℕ
  lower : ℕ
  upper : Option ℕ
  last : Option ℕ
  overFlag : Bool
  done : Bool
deriving DecidableEq, Repr

/-- Modelled from the spec: a fresh `ExponentialCliffSearcher(floor, ceiling)`
with convergence tolerance `tol`; the candidate starts at the floor. -/

def ExpCliff.init (floor ceiling tol : ℕ) : ExpCliff :=
  { ceiling := ceiling
    tol := tol
    lower := floor
    upper := none
    last := none
    overFlag := false
    done := false }

/-- Modelled from the spec: `overloaded()` invalidates the most recently
yielded candidate. -/

def ExpCliff.overloaded (s : ExpCliff) : ExpCliff := { s with overFlag := true }

/-- Modelled from the spec, §4.1: `next()` first absorbs the feedback on the
previously yielded candidate — success raises `lowerBound` to it, overload
sets `upperBound` to it — then proposes the next candidate: the floor on the
first call; doubling capped at the ceiling while growing (Done on reaching
the ceiling without ever overloading, reporting the ceiling); once an upper
bound exists, the midpoint `(lowerBound + upperBound) / 2`, Done when
`upperBound - lowerBound` falls below the tolerance. The answer at
termination is `lower`, the last known-good target. -/

def ExpCliff.next (s : ExpCliff) : Option ℕ × ExpCliff :=
  if s.done then (none, s)
  else
    match s.last with
    | none => (some s.lower, { s with last := some s.lower })
    | some c =>
      if s.overFlag then
        let s' := { s with upper := some c, overFlag := false }
        if c - s'.lower < s'.tol then (none, { s' with done := true, last := none })
        else
          let cand := (s'.lower + c) / 2
          (some cand, { s' with last := some cand })
      else
        let s' := { s with lower := c }
        match s'.upper with
        | none =>
          if c = s'.ceiling then (none, { s' with done := true, last := none })
          else
            let cand := min (2 * c) s'.ceiling
            (some cand, { s' with last := some cand })
        | some u =>
          if u - c < s'.tol then (none, { s' with done := true, last := none })
          else
            let cand := (c + u) / 2
            (some cand, { s' with last := some cand })

/-- Prepend one yielded target to a searcher-run outcome. -/

def yieldStep (t : ℕ) (r : List ℕ × ExpCliff × Bool) : List ℕ × ExpCliff × Bool :=
  (t :: r.1, r.2)

/-- Drive the searcher against an oracle (`o t = true` means the probe at
target `t` overloaded), as the exploration loop does: yield, feed back,
repeat. Returns the yielded targets in order, the final searcher state, and
whether the searcher finished (`next` returned `none`) within the step
budget. -/

def searchRun (o : ℕ → Bool) : ℕ → ExpCliff → List ℕ × ExpCliff × Bool
  | 0, s => ([], s, false)
  | fuel + 1, s =>
    match s.next with
    | (none, sF) => ([], sF, true)
    | (some t, s') => yieldStep t (searchRun o fuel (if o t then s'.overloaded else s'))

/-- vote.rs lines 106-110: the output filename stem
`{backend}.5000000a.{target}t.{writeEvery}r.{nclients}c.0m.{distribution}`,
with `backend` `"partial"` or `"full"` from the tuple's
partial-materialization flag. The article count 5000000 and the memory
field 0 are literal constants of the format string. -/

def fileStem (writeEvery : ℕ) (distribution : String) (nclients : ℕ)
    (pflag : Bool) (target : ℕ) : String :=
  (if pflag then "partial" else "full") ++ ".5000000a." ++ Nat.repr target ++ "t."
    ++ Nat.repr writeEvery ++ "r." ++ Nat.repr nclients ++ "c.0m." ++ distribution

/-! ## Lemmas and claim theorems -/

lemma classifyHash_ne_dataLine (tpc : ℕ) (cs : List Char) (e : List Char) (p s : ℕ) (b : Bool) :
    classifyHash tpc cs ≠ .dataLine e p s b := by
  unfold classifyHash
  split
  · split
    · simp
    · split <;> simp
  · simp

lemma classifyData_dataLine (toks : List (List Char)) (e : List Char) (p s : ℕ) (b : Bool)
    (h : classifyData toks = .dataLine e p s b) :
    b = (p == 50 && (decide (200000 < s) || s == 0)) := by
  unfold classifyData at h
  split at h
  · exact absurd h (by simp)
  · exact absurd h (by simp)
  · exact absurd h (by simp)
  · split at h
    · injection h with h1 h2 h3 h4
      subst h2; subst h3
      exact h4.symm
    · exact absurd h (by simp)

lemma lowThroughputCheck_iff (tpc : ℕ) (r : Dec) :
    lowThroughputCheck tpc r = true ↔ (tpc : ℚ) - r.toRat > (0.05 : ℚ) * tpc := by
  have hD : (0:ℚ) < 100 * 10 ^ r.exp := by positivity
  have key : ((tpc : ℚ) - r.toRat) - (0.05:ℚ) * tpc
      = (100 * ((tpc:ℚ) * 10 ^ r.exp - (r.mant : ℚ)) - 5 * tpc * 10 ^ r.exp) / (100 * 10 ^ r.exp) := by
    unfold Dec.toRat
    rw [show (0.05 : ℚ) = 5 / 100 by norm_num]
    field_simp
    ring
  have hq : ((tpc : ℚ) - r.toRat > (0.05:ℚ) * tpc) ↔
      (5 * (tpc:ℚ) * 10 ^ r.exp < 100 * ((tpc:ℚ) * 10 ^ r.exp - (r.mant : ℚ))) := by
    rw [gt_iff_lt, ← sub_pos, key, lt_div_iff₀ hD, zero_mul, sub_pos]
  rw [hq]
  unfold lowThroughputCheck
  rw [decide_eq_true_eq, gt_iff_lt]
  constructor
  · intro h; exact_mod_cast h
  · intro h; exact_mod_cast h

lemma classifyHash_throughput (tpc : ℕ) (cs : List Char) (r : Dec) (b : Bool)
    (h : classifyHash tpc cs = .throughput r b) : b = lowThroughputCheck tpc r := by
  unfold classifyHash at h
  split at h
  · split at h
    · exact absurd h (by simp)
    · split at h
      · injection h with h1 h2
        subst h1
        exact h2.symm
      · exact absurd h (by simp)
  · exact absurd h (by simp)

lemma classifyData_ne_throughput (toks : List (List Char)) (r : Dec) (b : Bool) :
    classifyData toks ≠ .throughput r b := by
  unfold classifyData
  split
  · simp
  · simp
  · simp
  · split <;> simp

/-- Claim C3: for every client-output data line whose percentile and sojourn-time
fields parse as integers, the high-latency overload fires iff
`percentile = 50` and (`sojournTime > 200000` microseconds or
`sojournTime = 0`); in particular `endpoint 50 300000` and `endpoint 50 0`
fire it and `endpoint 50 150000` does not. -/
theorem c3_high_latency_iff :
    (∀ (tpc : ℕ) (line : String) (e : List Char) (p s : ℕ) (b : Bool),
        classifyLine tpc line = .dataLine e p s b →
        (b = true ↔ (p = 50 ∧ (s > 200000 ∨ s = 0))))
    ∧ (∀ tpc : ℕ, classifyLine tpc "endpoint 50 300000" = .dataLine "endpoint".data 50 300000 true)
    ∧ (∀ tpc : ℕ, classifyLine tpc "endpoint 50 0" = .dataLine "endpoint".data 50 0 true)
    ∧ (∀ tpc : ℕ, classifyLine tpc "endpoint 50 150000" = .dataLine "endpoint".data 50 150000 false) := by
  refine ⟨?_, fun _ => rfl, fun _ => rfl, fun _ => rfl⟩
  intro tpc line e p s b h
  unfold classifyLine at h
  split at h
  · exact absurd h (classifyHash_ne_dataLine _ _ _ _ _ _)
  · have hb := classifyData_dataLine _ _ _ _ _ h
    subst hb
    simp [Bool.and_eq_true, Bool.or_eq_true, decide_eq_true_eq, gt_iff_lt]

/-- Witness for C3, at the line `endpoint 50 300000` with
`target_per_client = 1000`. -/
theorem c3_high_latency_iff_witness :
    ((true : Bool) = true ↔ ((50:ℕ) = 50 ∧ ((300000:ℕ) > 200000 ∨ (300000:ℕ) = 0))) :=
  c3_high_latency_iff.1 1000 "endpoint 50 300000" "endpoint".data 50 300000 true (by decide)

/-- Claim C4: for every recognized throughput summary line, the low-throughput
overload fires iff `perClientTarget - rate > 0.05 * perClientTarget`; with
`perClientTarget = 1000` the line `# actual ops/s 941` fires it and
`# actual ops/s 960` does not. -/
theorem c4_low_throughput_iff :
    (∀ (tpc : ℕ) (line : String) (r : Dec) (b : Bool),
        classifyLine tpc line = .throughput r b →
        (b = true ↔ (tpc : ℚ) - r.toRat > (0.05 : ℚ) * tpc))
    ∧ classifyLine 1000 "# actual ops/s 941" = .throughput ⟨941, 0⟩ true
    ∧ classifyLine 1000 "# actual ops/s 960" = .throughput ⟨960, 0⟩ false := by
  refine ⟨?_, by decide, by decide⟩
  intro tpc line r b h
  unfold classifyLine at h
  split at h
  · rw [classifyHash_throughput _ _ _ _ h]
    exact lowThroughputCheck_iff tpc r
  · exact absurd h (classifyData_ne_throughput _ _ _)

/-- Witness for C4, at the line `# actual ops/s 941` with
`target_per_client = 1000`. -/
theorem c4_low_throughput_iff_witness :
    ((true : Bool) = true ↔ (1000 : ℚ) - (Dec.mk 941 0).toRat > (0.05 : ℚ) * 1000) :=
  c4_low_throughput_iff.1 1000 "# actual ops/s 941" ⟨941, 0⟩ true (by decide)

lemma foldLines_nil (tpc : ℕ) (a : StreamAcc) : foldLines tpc [] a = a := rfl

lemma foldLines_cons (tpc : ℕ) (l : String) (ls : List String) (a : StreamAcc) :
    foldLines tpc (l :: ls) a = foldLines tpc ls (stepAcc tpc a l) := rfl

lemma runStream_cons_step (tpc : ℕ) (c r : Option ℕ) (l : String) (ls : List String)
    (a : StreamAcc) (hc : c ≠ some 0) (hr : r ≠ some 0)
    (hl : classifyLine tpc l ≠ .panicked) :
    runStream tpc c r (l :: ls) a =
      runStream tpc (c.map (· - 1)) (r.map (· - 1)) ls (stepAcc tpc a l) := by
  conv_lhs => unfold runStream
  rw [if_neg hc, if_neg hr]
  unfold stepAcc
  cases hcl : classifyLine tpc l
  case panicked => exact absurd hcl hl
  all_goals rfl

lemma runStream_finished (tpc : ℕ) (ls : List String) :
    ∀ a : StreamAcc, (∀ l ∈ ls, classifyLine tpc l ≠ .panicked) →
    runStream tpc none none ls a = .finished (foldLines tpc ls a) := by
  induction ls with
  | nil => intro a _; rfl
  | cons l ls ih =>
    intro a hnp
    rw [runStream_cons_step tpc none none l ls a (by simp) (by simp) (hnp l (by simp))]
    simp only [Option.map_none']
    rw [ih _ (fun x hx => hnp x (by simp [hx])), foldLines_cons]

lemma runStream_cancelled (tpc : ℕ) (ls : List String) :
    ∀ (n : ℕ) (a : StreamAcc), n < ls.length →
    (∀ l ∈ ls.take n, classifyLine tpc l ≠ .panicked) →
    runStream tpc (some n) none ls a = .cancelled (foldLines tpc (ls.take n) a) := by
  induction ls with
  | nil => intro n a hn _; simp at hn
  | cons l ls ih =>
    intro n a hn hnp
    match n with
    | 0 => rfl
    | n + 1 =>
      rw [runStream_cons_step tpc (some (n + 1)) none l ls a (by simp) (by simp)
        (hnp l (by simp))]
      simp only [Option.map_none', Option.map_some', Nat.add_sub_cancel]
      rw [ih n _ (by simpa using hn) (fun x hx => hnp x (by simp [hx])),
        List.take_succ_cons, foldLines_cons]

lemma runStream_cases (tpc : ℕ) (ls : List String) :
    ∀ (c : Option ℕ) (a : StreamAcc), (∀ l ∈ ls, classifyLine tpc l ≠ .panicked) →
    (∃ x, runStream tpc c none ls a = .finished x) ∨
    (∃ x, runStream tpc c none ls a = .cancelled x) := by
  induction ls with
  | nil => intro c a _; exact .inl ⟨a, rfl⟩
  | cons l ls ih =>
    intro c a hnp
    by_cases hc : c = some 0
    · right
      refine ⟨a, ?_⟩
      unfold runStream
      rw [if_pos hc]
    · rw [runStream_cons_step tpc c none l ls a hc (by simp) (hnp l (by simp))]
      simp only [Option.map_none']
      exact ih _ _ (fun x hx => hnp x (by simp [hx]))

lemma stepAcc_got (tpc : ℕ) (a : StreamAcc) (l : String) :
    (stepAcc tpc a l).got = (a.got || isDataLine tpc l) := by
  unfold stepAcc isDataLine
  cases classifyLine tpc l <;> simp [applyEv]

lemma foldLines_got (tpc : ℕ) (ls : List String) :
    ∀ a : StreamAcc, (foldLines tpc ls a).got = (a.got || ls.any (isDataLine tpc)) := by
  induction ls with
  | nil => intro a; simp [foldLines]
  | cons l ls ih =>
    intro a
    rw [foldLines_cons, ih, stepAcc_got]
    simp [Bool.or_assoc]

lemma stepAcc_overs (tpc : ℕ) (a : StreamAcc) (l : String) :
    ∃ ex, (stepAcc tpc a l).overs = a.overs ++ ex ∧
      ∀ s ∈ ex, s = Signal.HighLatency ∨ s = Signal.LowThroughput := by
  unfold stepAcc
  cases classifyLine tpc l
  case dataLine e p s' b =>
    cases b
    · exact ⟨[], by simp [applyEv], by simp⟩
    · exact ⟨[Signal.HighLatency], by simp [applyEv], by simp⟩
  case throughput r b =>
    cases b
    · exact ⟨[], by simp [applyEv], by simp⟩
    · exact ⟨[Signal.LowThroughput], by simp [applyEv], by simp⟩
  case badLine => exact ⟨[], by simp [applyEv], by simp⟩
  case comment => exact ⟨[], by simp [applyEv], by simp⟩
  case panicked => exact ⟨[], by simp [applyEv], by simp⟩

lemma foldLines_overs (tpc : ℕ) (ls : List String) :
    ∀ a : StreamAcc, ∃ ex, (foldLines tpc ls a).overs = a.overs ++ ex ∧
      ∀ s ∈ ex, s = Signal.HighLatency ∨ s = Signal.LowThroughput := by
  induction ls with
  | nil => intro a; exact ⟨[], by simp [foldLines], by simp⟩
  | cons l ls ih =>
    intro a
    obtain ⟨ex1, he1, hm1⟩ := stepAcc_overs tpc a l
    obtain ⟨ex2, he2, hm2⟩ := ih (stepAcc tpc a l)
    refine ⟨ex1 ++ ex2, ?_, ?_⟩
    · rw [foldLines_cons, he2, he1, List.append_assoc]
    · intro s hs
      rcases List.mem_append.1 hs with h | h
      · exact hm1 s h
      · exact hm2 s h

lemma stepAcc_processed (tpc : ℕ) (a : StreamAcc) (l : String)
    (hl : classifyLine tpc l ≠ .panicked) :
    (stepAcc tpc a l).processed = a.processed + 1 := by
  unfold stepAcc
  cases hcl : classifyLine tpc l
  case panicked => exact absurd hcl hl
  all_goals simp [applyEv]

lemma foldLines_processed (tpc : ℕ) (ls : List String) :
    ∀ a : StreamAcc, (∀ l ∈ ls, classifyLine tpc l ≠ .panicked) →
    (foldLines tpc ls a).processed = a.processed + ls.length := by
  induction ls with
  | nil => intro a _; simp [foldLines]
  | cons l ls ih =>
    intro a hnp
    rw [foldLines_cons, ih _ (fun x hx => hnp x (by simp [hx])),
      stepAcc_processed tpc a l (hnp l (by simp))]
    simp only [List.length_cons]
    omega

lemma mem_histFilter (cls : List ClientRun) (i : ℕ) :
    i ∈ (List.range cls.length).filter (fun i => ((cls[i]?).map (·.exitOk)).getD false) ↔
    ∃ c, cls[i]? = some c ∧ c.exitOk = true := by
  rw [List.mem_filter, List.mem_range]
  constructor
  · rintro ⟨hi, hp⟩
    rcases hc : cls[i]? with _ | c
    · rw [hc] at hp; simp at hp
    · rw [hc] at hp
      simp at hp
      exact ⟨c, rfl, hp⟩
  · rintro ⟨c, hc, hok⟩
    have hi : i < cls.length := by
      by_contra hlt
      rw [List.getElem?_eq_none (by omega)] at hc
      exact Option.noConfusion hc
    refine ⟨hi, ?_⟩
    rw [hc]
    simpa using hok

/-- Claim C1 (counterexample): the claim says the server is stopped on every
exit path, including infrastructure errors. It is not: when creating the
local log file fails (vote.rs line 183, a `?`), the error propagates out of
the probe's `async` block before line 362, and `crate::server::stop` is
never invoked for this probe. -/
theorem c1_server_stop_counterexample :
    (runProbe 100 { cleanScript [⟨["endpoint 50 100"], true⟩] with
        createLogOk := false }).serverStops = 0 ∧
    (runProbe 100 { cleanScript [⟨["endpoint 50 100"], true⟩] with
        createLogOk := false }).ok = false := by
  decide

/-- Claim C1 (amended): on every probe whose `?`-propagating infrastructure
interactions all succeed and whose output panics nowhere, the server-stop
step of vote.rs line 362 runs exactly once — whether the probe succeeded,
primed unsuccessfully, raised overload signals, or observed cancellation at
any checkpoint. An infrastructure error instead skips it (see the
counterexample). -/
theorem c1_server_stop_amended (tpc : ℕ) (sc : ProbeScript)
    (h1 : sc.serverSpawnOk = true) (h2 : sc.primeSpawnOk = true)
    (h3 : sc.spawnOk = true) (h4 : sc.createLogOk = true)
    (h5 : sc.readErrAfter = none) (h6 : sc.waitOk = true)
    (h7 : sc.metaOk = true) (h8 : sc.histOk = true) (h9 : sc.statsOk = true)
    (h0 : ∀ l ∈ sc.allLines, classifyLine tpc l ≠ .panicked) :
    (runProbe tpc sc).serverStops = 1 := by
  unfold runProbe
  rw [h1, h2, h3, h4, h5, h6, h7, h8, h9]
  rw [if_neg (by simp), if_neg (by simp)]
  cases hps : sc.primeStatusOk
  · rfl
  · rw [if_neg (by simp)]
    cases hep : sc.exitAfterPrime
    · rw [if_neg (by simp), if_neg (by simp), if_neg (by simp)]
      rcases runStream_cases tpc sc.allLines sc.cancelAfter ⟨[], false, 0⟩ h0 with
        ⟨x, hx⟩ | ⟨x, hx⟩
      · rw [hx]
        cases hef : sc.exitAfterFin
        · simp only [Bool.false_eq_true, if_false, Bool.not_true]
          cases hall : sc.clients.all (·.exitOk) <;> simp
        · simp
      · rw [hx]
    · rw [if_pos (by simp)]

/-- Witness for the amended C1: a concrete clean probe stops the server
exactly once. -/
theorem c1_server_stop_amended_witness :
    (runProbe 100 (cleanScript [⟨["endpoint 50 100"], true⟩])).serverStops = 1 :=
  c1_server_stop_amended 100 (cleanScript [⟨["endpoint 50 100"], true⟩])
    rfl rfl rfl rfl rfl rfl rfl rfl rfl (by decide)

/-- Claim C6 (counterexample): the claim says a started probe is never
interrupted by cancellation — it runs to natural completion or to a detected
overload. But the `tokio::select!` of vote.rs lines 241-251 races the
output-draining future against `exit.recv()`: when cancellation wins before
the single output line is read, the line is never classified, no overload is
detected, and the probe is abandoned mid-stream — while the identical probe
without cancellation processes the line and raises `HighLatency`. -/
theorem c6_cancellation_counterexample :
    (runProbe 100 { cleanScript [⟨["endpoint 50 300000"], true⟩] with
        cancelAfter := some 0 }).processed = 0 ∧
    (runProbe 100 { cleanScript [⟨["endpoint 50 300000"], true⟩] with
        cancelAfter := some 0 }).overloads = [] ∧
    (runProbe 100 { cleanScript [⟨["endpoint 50 300000"], true⟩] with
        cancelAfter := some 0 }).aborted = true ∧
    (runProbe 100 (cleanScript [⟨["endpoint 50 300000"], true⟩])).processed = 1 ∧
    (runProbe 100 (cleanScript [⟨["endpoint 50 300000"], true⟩])).overloads
      = [.HighLatency] := by
  decide

/-- Claim C6 (amended): cancellation is still cooperative, but it has a
checkpoint *inside* the Running phase: when `exit.recv()` wins the `select!`
after `n` of the client lines were processed, the probe stops classifying at
exactly `n` lines, the `got_lines`/`MissingOutput` check is skipped, the
collecting phase is skipped (no statistics snapshot and no histograms), and
the server-stop cleanup still runs once. The overloads of the run are
exactly the signals raised by classifying the first `n` lines — everything
raised before the preemption is retained, and `MissingOutput` is never
among them. -/
theorem c6_cancellation_amended (tpc : ℕ) (sc : ProbeScript) (n : ℕ)
    (h1 : sc.serverSpawnOk = true) (h2 : sc.primeSpawnOk = true)
    (h3 : sc.primeStatusOk = true) (h4 : sc.exitAfterPrime = false)
    (h5 : sc.spawnOk = true) (h6 : sc.createLogOk = true)
    (h7 : sc.readErrAfter = none) (hc : sc.cancelAfter = some n)
    (hn : n < sc.allLines.length)
    (h0 : ∀ l ∈ sc.allLines.take n, classifyLine tpc l ≠ .panicked) :
    (runProbe tpc sc).processed = n ∧
    (runProbe tpc sc).overloads
      = (foldLines tpc (sc.allLines.take n) ⟨[], false, 0⟩).overs ∧
    Signal.MissingOutput ∉ (runProbe tpc sc).overloads ∧
    (runProbe tpc sc).serverStops = 1 ∧
    (runProbe tpc sc).statsWritten = false ∧
    (runProbe tpc sc).histsSaved = [] ∧
    (runProbe tpc sc).aborted = true := by
  have hrun : runProbe tpc sc =
      { ProbeResult.base with
        overloads := (foldLines tpc (sc.allLines.take n) ⟨[], false, 0⟩).overs
        processed := (foldLines tpc (sc.allLines.take n) ⟨[], false, 0⟩).processed
        gotLines := (foldLines tpc (sc.allLines.take n) ⟨[], false, 0⟩).got
        logCreated := true
        serverStops := 1
        aborted := true
        ok := sc.stopOk } := by
    unfold runProbe
    rw [h1, h2, h3, h4, h5, h6, h7, hc]
    rw [if_neg (by simp), if_neg (by simp), if_neg (by simp), if_neg (by simp),
      if_neg (by simp), if_neg (by simp)]
    rw [runStream_cancelled tpc sc.allLines n ⟨[], false, 0⟩ hn h0]
  rw [hrun]
  refine ⟨?_, rfl, ?_, rfl, rfl, rfl, rfl⟩
  · show (foldLines tpc (sc.allLines.take n) ⟨[], false, 0⟩).processed = n
    rw [foldLines_processed tpc _ _ h0]
    simp [List.length_take]
    omega
  · show Signal.MissingOutput ∉ (foldLines tpc (sc.allLines.take n) ⟨[], false, 0⟩).overs
    obtain ⟨ex, hex, hmem⟩ := foldLines_overs tpc (sc.allLines.take n) ⟨[], false, 0⟩
    rw [hex]
    simp only [List.nil_append]
    intro hmo
    rcases hmem _ hmo with h | h <;> exact Signal.noConfusion h

/-- Witness for the amended C6: cancelling after one of two lines leaves one
line processed; the `HighLatency` raised by that first line is retained as
exactly the overloads of the classified prefix, no `MissingOutput` appears,
the server stops once, no statistics and no histograms are collected, and
the aborted flag is set. -/
theorem c6_cancellation_amended_witness :
    (runProbe 100 { cleanScript [⟨["endpoint 50 300000", "endpoint 50 100"], true⟩] with
        cancelAfter := some 1 }).processed = 1 ∧
    (runProbe 100 { cleanScript [⟨["endpoint 50 300000", "endpoint 50 100"], true⟩] with
        cancelAfter := some 1 }).overloads
      = (foldLines 100 (({ cleanScript [⟨["endpoint 50 300000", "endpoint 50 100"], true⟩] with
          cancelAfter := some 1 } : ProbeScript).allLines.take 1) ⟨[], false, 0⟩).overs ∧
    Signal.MissingOutput ∉ (runProbe 100 { cleanScript
        [⟨["endpoint 50 300000", "endpoint 50 100"], true⟩] with
        cancelAfter := some 1 }).overloads ∧
    (runProbe 100 { cleanScript [⟨["endpoint 50 300000", "endpoint 50 100"], true⟩] with
        cancelAfter := some 1 }).serverStops = 1 ∧
    (runProbe 100 { cleanScript [⟨["endpoint 50 300000", "endpoint 50 100"], true⟩] with
        cancelAfter := some 1 }).statsWritten = false ∧
    (runProbe 100 { cleanScript [⟨["endpoint 50 300000", "endpoint 50 100"], true⟩] with
        cancelAfter := some 1 }).histsSaved = [] ∧
    (runProbe 100 { cleanScript [⟨["endpoint 50 300000", "endpoint 50 100"], true⟩] with
        cancelAfter := some 1 }).aborted = true :=
  c6_cancellation_amended 100
    { cleanScript [⟨["endpoint 50 300000", "endpoint 50 100"], true⟩] with
      cancelAfter := some 1 } 1
    rfl rfl rfl rfl rfl rfl rfl rfl (by decide) (by decide)

/-- Claim C7 (counterexample): the claim says a client with zero parseable data
lines raises `MissingOutput` even when other clients did produce data lines.
It does not: `got_lines` (vote.rs line 185) is a single flag shared across
the whole loop over all clients, so one client's healthy data line masks
another client that produced none — no overload is raised and the run counts
as a full success. -/
theorem c7_missing_output_counterexample :
    (runProbe 100 (cleanScript
      [⟨["endpoint 50 100"], true⟩, ⟨["# actual ops/s 100"], true⟩])).overloads = [] ∧
    (runProbe 100 (cleanScript
      [⟨["endpoint 50 100"], true⟩, ⟨["# actual ops/s 100"], true⟩])).statsWritten
      = true := by
  decide

/-- Claim C7 (amended): on a run that drains every line and reaches the check of
vote.rs lines 253-257, `MissingOutput` is raised iff *no* line of *any*
client parsed as a data line — the check is global to the probe, not
per-client, and a healthy throughput comment line does not count as data. -/
theorem c7_missing_output_amended (tpc : ℕ) (sc : ProbeScript)
    (h1 : sc.serverSpawnOk = true) (h2 : sc.primeSpawnOk = true)
    (h3 : sc.primeStatusOk = true) (h4 : sc.exitAfterPrime = false)
    (h5 : sc.spawnOk = true) (h6 : sc.createLogOk = true)
    (h7 : sc.cancelAfter = none) (h8 : sc.readErrAfter = none)
    (h9 : sc.exitAfterFin = false) (h10 : sc.waitOk = true)
    (h11 : sc.metaOk = true) (h12 : sc.histOk = true) (h13 : sc.statsOk = true)
    (h0 : ∀ l ∈ sc.allLines, classifyLine tpc l ≠ .panicked) :
    (Signal.MissingOutput ∈ (runProbe tpc sc).overloads ↔
      ∀ l ∈ sc.allLines, isDataLine tpc l = false) := by
  have hgot : (foldLines tpc sc.allLines ⟨[], false, 0⟩).got
      = sc.allLines.any (isDataLine tpc) := by
    rw [foldLines_got]
    rfl
  have hrun : (runProbe tpc sc).overloads =
      (if !(foldLines tpc sc.allLines ⟨[], false, 0⟩).got then
          (foldLines tpc sc.allLines ⟨[], false, 0⟩).overs ++ [.MissingOutput]
        else (foldLines tpc sc.allLines ⟨[], false, 0⟩).overs)
        ++ (sc.clients.filter (fun c => !c.exitOk)).map (fun _ => Signal.ProcessFailure) := by
    unfold runProbe
    rw [h1, h2, h3, h4, h5, h6, h7, h8, h9, h10, h11, h12, h13]
    rw [if_neg (by simp), if_neg (by simp), if_neg (by simp), if_neg (by simp),
      if_neg (by simp), if_neg (by simp)]
    rw [runStream_finished tpc sc.allLines ⟨[], false, 0⟩ h0]
    cases hall : sc.clients.all (·.exitOk) <;> rfl
  obtain ⟨ex, hex, hmem⟩ := foldLines_overs tpc sc.allLines ⟨[], false, 0⟩
  rw [hrun]
  constructor
  · intro hin l hl
    by_contra hld
    have hany : sc.allLines.any (isDataLine tpc) = true :=
      List.any_eq_true.2 ⟨l, hl, by simpa using hld⟩
    rw [if_neg (by rw [hgot, hany]; simp)] at hin
    rcases List.mem_append.1 hin with hin | hin
    · rw [hex] at hin
      simp only [List.nil_append] at hin
      rcases hmem _ hin with h | h <;> exact Signal.noConfusion h
    · rcases List.mem_map.1 hin with ⟨c, _, hpf⟩
      exact Signal.noConfusion hpf
  · intro hall2
    have hany : sc.allLines.any (isDataLine tpc) = false := by
      rw [List.any_eq_false]
      intro x hx
      simp [hall2 x hx]
    apply List.mem_append.2
    left
    rw [if_pos (by rw [hgot, hany]; simp)]
    exact List.mem_append.2 (.inr (by simp))

/-- Witness for the amended C7: a single client whose only line is a healthy
throughput comment yields zero data lines, so `MissingOutput` is raised. -/
theorem c7_missing_output_amended_witness :
    (Signal.MissingOutput ∈
      (runProbe 100 (cleanScript [⟨["# actual ops/s 100"], true⟩])).overloads ↔
      ∀ l ∈ (cleanScript [⟨["# actual ops/s 100"], true⟩]).allLines,
        isDataLine 100 l = false) :=
  c7_missing_output_amended 100 (cleanScript [⟨["# actual ops/s 100"], true⟩])
    rfl rfl rfl rfl rfl rfl rfl rfl rfl rfl rfl rfl rfl (by decide)

/-- Claim C8 (counterexample): the claim says the statistics snapshot is written
iff all clients exited successfully *and no overload signal was raised*, and
that on partial failure histogram collection is skipped entirely. Neither
holds: `all_ok` (vote.rs line 259) tracks only exit statuses, so a run whose
only line raises `HighLatency` still gets `-statistics.json`; and with one
failed client the successful client's histogram is still saved (line 315
skips only the failed one). -/
theorem c8_statistics_counterexample :
    ((runProbe 100 (cleanScript [⟨["endpoint 50 300000"], true⟩])).overloads
        = [.HighLatency] ∧
      (runProbe 100 (cleanScript [⟨["endpoint 50 300000"], true⟩])).statsWritten
        = true) ∧
    ((runProbe 100 (cleanScript [⟨["endpoint 50 100"], true⟩, ⟨[], false⟩])).statsWritten
        = false ∧
      (runProbe 100 (cleanScript [⟨["endpoint 50 100"], true⟩, ⟨[], false⟩])).histsSaved
        = [0] ∧
      (runProbe 100 (cleanScript [⟨["endpoint 50 100"], true⟩, ⟨[], false⟩])).logCreated
        = true) := by
  decide

/-- Claim C8 (amended): on a run that reaches the Collecting phase, the
statistics snapshot is written iff every client process exited successfully —
independently of any overload signal raised from the output; histograms are
collected exactly for the clients that exited successfully; and the raw log
file exists in every case. -/
theorem c8_statistics_amended (tpc : ℕ) (sc : ProbeScript)
    (h1 : sc.serverSpawnOk = true) (h2 : sc.primeSpawnOk = true)
    (h3 : sc.primeStatusOk = true) (h4 : sc.exitAfterPrime = false)
    (h5 : sc.spawnOk = true) (h6 : sc.createLogOk = true)
    (h7 : sc.cancelAfter = none) (h8 : sc.readErrAfter = none)
    (h9 : sc.exitAfterFin = false) (h10 : sc.waitOk = true)
    (h11 : sc.metaOk = true) (h12 : sc.histOk = true) (h13 : sc.statsOk = true)
    (h0 : ∀ l ∈ sc.allLines, classifyLine tpc l ≠ .panicked) :
    ((runProbe tpc sc).statsWritten = true ↔ sc.clients.all (·.exitOk) = true) ∧
    (∀ i : ℕ, i ∈ (runProbe tpc sc).histsSaved ↔
      ∃ c, sc.clients[i]? = some c ∧ c.exitOk = true) ∧
    (runProbe tpc sc).logCreated = true := by
  have hpre : ∀ res : ProbeResult, runProbe tpc sc = res →
      res.statsWritten = (sc.clients.all (·.exitOk)) ∧
      res.histsSaved = (List.range sc.clients.length).filter
        (fun i => ((sc.clients[i]?).map (·.exitOk)).getD false) ∧
      res.logCreated = true := by
    intro res hres
    subst hres
    unfold runProbe
    rw [h1, h2, h3, h4, h5, h6, h7, h8, h9, h10, h11, h12, h13]
    rw [if_neg (by simp), if_neg (by simp), if_neg (by simp), if_neg (by simp),
      if_neg (by simp), if_neg (by simp)]
    rw [runStream_finished tpc sc.allLines ⟨[], false, 0⟩ h0]
    cases hall : sc.clients.all (·.exitOk)
    · exact ⟨rfl, rfl, rfl⟩
    · exact ⟨rfl, rfl, rfl⟩
  obtain ⟨hs, hh, hl⟩ := hpre _ rfl
  refine ⟨by rw [hs], ?_, hl⟩
  intro i
  rw [hh]
  exact mem_histFilter sc.clients i

/-- Witness for the amended C8: a clean run with one overloading but cleanly
exiting client writes the statistics snapshot. -/
theorem c8_statistics_amended_witness :
    ((runProbe 100 (cleanScript [⟨["endpoint 50 300000"], true⟩])).statsWritten = true ↔
      (cleanScript [⟨["endpoint 50 300000"], true⟩]).clients.all (·.exitOk) = true) ∧
    (∀ i : ℕ, i ∈ (runProbe 100 (cleanScript [⟨["endpoint 50 300000"], true⟩])).histsSaved ↔
      ∃ c, (cleanScript [⟨["endpoint 50 300000"], true⟩]).clients[i]? = some c ∧
        c.exitOk = true) ∧
    (runProbe 100 (cleanScript [⟨["endpoint 50 300000"], true⟩])).logCreated = true :=
  c8_statistics_amended 100 (cleanScript [⟨["endpoint 50 300000"], true⟩])
    rfl rfl rfl rfl rfl rfl rfl rfl rfl rfl rfl rfl rfl (by decide)

lemma exploreAux_none {σ : Type} (next : σ → Option (ℕ × σ)) (onOver : σ → σ)
    (probe : ℕ → ℕ → Verdict) (exitAt : ℕ → Bool) (fuel : ℕ) (s : σ)
    (succ : Option ℕ) (lastGood i : ℕ) (hnext : next s = none) :
    exploreAux next onOver probe exitAt (fuel + 1) s succ lastGood i
      = ([], .ok lastGood) := by
  unfold exploreAux
  rw [hnext]

lemma exploreAux_exit {σ : Type} (next : σ → Option (ℕ × σ)) (onOver : σ → σ)
    (probe : ℕ → ℕ → Verdict) (exitAt : ℕ → Bool) (fuel : ℕ) (s s' : σ)
    (succ : Option ℕ) (lastGood i t : ℕ) (hnext : next s = some (t, s'))
    (hex : exitAt i = true) :
    exploreAux next onOver probe exitAt (fuel + 1) s succ lastGood i
      = ([(t, .notRun)], .ok (succ.getD lastGood)) := by
  unfold exploreAux
  simp only [hnext]
  rw [if_pos hex]

lemma exploreAux_err {σ : Type} (next : σ → Option (ℕ × σ)) (onOver : σ → σ)
    (probe : ℕ → ℕ → Verdict) (exitAt : ℕ → Bool) (fuel : ℕ) (s s' : σ)
    (succ : Option ℕ) (lastGood i t : ℕ) (hnext : next s = some (t, s'))
    (hex : exitAt i = false) (hv : probe i t = .err) :
    exploreAux next onOver probe exitAt (fuel + 1) s succ lastGood i
      = ([(t, .err)], .err) := by
  unfold exploreAux
  simp only [hnext]
  rw [if_neg (show ¬exitAt i = true by rw [hex]; exact Bool.false_ne_true)]
  simp only [hv]

lemma exploreAux_step {σ : Type} (next : σ → Option (ℕ × σ)) (onOver : σ → σ)
    (probe : ℕ → ℕ → Verdict) (exitAt : ℕ → Bool) (fuel : ℕ) (s s' : σ)
    (succ : Option ℕ) (lastGood i t : ℕ) (v : Verdict)
    (hnext : next s = some (t, s')) (hex : exitAt i = false)
    (hv : probe i t = v) (hne : v ≠ .err) :
    exploreAux next onOver probe exitAt (fuel + 1) s succ lastGood i
      = ((t, v) :: (exploreAux next onOver probe exitAt fuel
            (if v = .overload then onOver s' else s')
            (if v = .overload then none else some t)
            (succ.getD lastGood) (i + 1)).1,
          (exploreAux next onOver probe exitAt fuel
            (if v = .overload then onOver s' else s')
            (if v = .overload then none else some t)
            (succ.getD lastGood) (i + 1)).2) := by
  conv_lhs => unfold exploreAux
  simp only [hnext]
  rw [if_neg (show ¬exitAt i = true by rw [hex]; exact Bool.false_ne_true)]
  cases v
  case err => exact absurd rfl hne
  all_goals simp only [hv]

lemma exploreAux_calc {σ : Type} (next : σ → Option (ℕ × σ)) (onOver : σ → σ)
    (probe : ℕ → ℕ → Verdict) (exitAt : ℕ → Bool) :
    ∀ (fuel : ℕ) (s : σ) (succ : Option ℕ) (lastGood i v : ℕ),
      (exploreAux next onOver probe exitAt fuel s succ lastGood i).2 = .ok v →
      v = ((exploreAux next onOver probe exitAt fuel s succ lastGood i).1.foldl
        commitStep (lastGood, succ)).1 := by
  intro fuel
  induction fuel with
  | zero =>
    intro s succ lastGood i v h
    exact absurd h (by simp [exploreAux])
  | succ fuel ih =>
    intro s succ lastGood i v h
    cases hnext : next s with
    | none =>
      rw [exploreAux_none next onOver probe exitAt fuel s succ lastGood i hnext] at h ⊢
      simp only [List.foldl_nil]
      injection h with h
      exact h.symm
    | some ts =>
      obtain ⟨t, s'⟩ := ts
      cases hex : exitAt i with
      | true =>
        rw [exploreAux_exit next onOver probe exitAt fuel s s' succ lastGood i t
          hnext hex] at h ⊢
        simp only [List.foldl_cons, List.foldl_nil, commitStep]
        injection h with h
        exact h.symm
      | false =>
        cases hv : probe i t with
        | err =>
          rw [exploreAux_err next onOver probe exitAt fuel s s' succ lastGood i t
            hnext hex hv] at h
          exact absurd h (by simp)
        | success =>
          rw [exploreAux_step next onOver probe exitAt fuel s s' succ lastGood i t
            .success hnext hex hv (by simp)] at h ⊢
          simp only [List.foldl_cons]
          have hrec := ih _ _ _ _ _ h
          rw [hrec]
          rfl
        | overload =>
          rw [exploreAux_step next onOver probe exitAt fuel s s' succ lastGood i t
            .overload hnext hex hv (by simp)] at h ⊢
          simp only [List.foldl_cons]
          have hrec := ih _ _ _ _ _ h
          rw [hrec]
          rfl
        | aborted =>
          rw [exploreAux_step next onOver probe exitAt fuel s s' succ lastGood i t
            .aborted hnext hex hv (by simp)] at h ⊢
          simp only [List.foldl_cons]
          have hrec := ih _ _ _ _ _ h
          rw [hrec]
          rfl
        | notRun =>
          rw [exploreAux_step next onOver probe exitAt fuel s s' succ lastGood i t
            .notRun hnext hex hv (by simp)] at h ⊢
          simp only [List.foldl_cons]
          have hrec := ih _ _ _ _ _ h
          rw [hrec]
          rfl

lemma exploreAux_all_overload {σ : Type} (next : σ → Option (ℕ × σ)) (onOver : σ → σ)
    (probe : ℕ → ℕ → Verdict) (exitAt : ℕ → Bool)
    (hover : ∀ i t, probe i t = .overload) :
    ∀ (fuel : ℕ) (s : σ) (i : ℕ),
      (exploreAux next onOver probe exitAt fuel s none 0 i).2 = .ok 0 ∨
      (exploreAux next onOver probe exitAt fuel s none 0 i).2 = .fuelOut := by
  intro fuel
  induction fuel with
  | zero => intro s i; right; rfl
  | succ fuel ih =>
    intro s i
    cases hnext : next s with
    | none =>
      rw [exploreAux_none next onOver probe exitAt fuel s none 0 i hnext]
      left; rfl
    | some ts =>
      obtain ⟨t, s'⟩ := ts
      cases hex : exitAt i with
      | true =>
        rw [exploreAux_exit next onOver probe exitAt fuel s s' none 0 i t hnext hex]
        left; rfl
      | false =>
        rw [exploreAux_step next onOver probe exitAt fuel s s' none 0 i t .overload
          hnext hex (hover i t) (by simp)]
        simpa using ih (onOver s') (i + 1)

/-- Claim C2 (counterexample): the claim says the result equals the highest
target whose probe raised no overload. But `last_good_target` is only
updated at the top of the *next* iteration (vote.rs lines 92-95), so the
final yielded target is never recorded: replaying targets 10 and 20 against
probes that fully succeed end-to-end returns 10, not 20. -/
theorem c2_last_good_counterexample :
    explore loadIterNext loadIterOver
      (fun _ t => verdictOf (runProbe (targetPerClient t 6)
        (cleanScript [⟨["endpoint 50 100"], true⟩])))
      (fun _ => false) 10 [10, 20]
      = ([(10, .success), (20, .success)], .ok 10) := by decide

/-- Claim C2 (amended): whenever the exploration returns `Ok v`, `v` is the
replay of the commit discipline over the yield trace: the most recent target
that was yielded before a further yield happened and whose probe did not
raise an overload signal (a cancelled probe's target also counts), or 0 if
there is none. In particular the final yielded target is never recorded, and
`v` is never a target whose probe overloaded. -/
theorem c2_last_good_amended {σ : Type} (next : σ → Option (ℕ × σ)) (onOver : σ → σ)
    (probe : ℕ → ℕ → Verdict) (exitAt : ℕ → Bool) (fuel : ℕ) (s : σ) (v : ℕ)
    (h : (explore next onOver probe exitAt fuel s).2 = .ok v) :
    v = calcLastGood (explore next onOver probe exitAt fuel s).1 :=
  exploreAux_calc next onOver probe exitAt fuel s none 0 0 v h

/-- Witness for the amended C2 at the counterexample's trace. -/
theorem c2_last_good_amended_witness :
    (10 : ℕ) = calcLastGood (explore loadIterNext loadIterOver
      (fun _ _ => Verdict.success) (fun _ => false) 10 [10, 20]).1 :=
  c2_last_good_amended loadIterNext loadIterOver (fun _ _ => Verdict.success)
    (fun _ => false) 10 [10, 20] 10 (by decide)

/-- Claim C10 (counterexample): the claim says that when no probe ever
completes without an overload signal and cancellation fires before any
success is committed, the exploration still returns 0. But an
aborted-by-cancellation probe leaves `successful_target` set, and the next
iteration commits it *before* checking the exit flag: probing target 7 whose
run is preempted by cancellation, then observing the exit flag at the top of
the next iteration, returns `Ok 7` — no probe completed, none overloaded,
and the result is not 0. -/
theorem c10_zero_default_counterexample :
    explore loadIterNext loadIterOver
      (fun _ t => verdictOf (runProbe (targetPerClient t 1)
        { cleanScript [⟨["endpoint 50 100"], true⟩] with cancelAfter := some 0 }))
      (fun i => decide (1 ≤ i)) 10 [7, 9]
      = ([(7, .aborted), (9, .notRun)], .ok 7) := by decide

/-- Claim C10 (amended): if every probe that runs raises an overload signal
(prime failure included), then whatever the searcher yields and whenever
cancellation is observed at the loop top, the exploration returns `Ok 0` —
zero is the default result, not an error, indistinguishable from a measured
capacity of zero. (`fuelOut` is the model's step budget, not a program
outcome.) -/
theorem c10_zero_default_amended {σ : Type} (next : σ → Option (ℕ × σ)) (onOver : σ → σ)
    (probe : ℕ → ℕ → Verdict) (exitAt : ℕ → Bool) (fuel : ℕ) (s : σ)
    (hover : ∀ i t, probe i t = .overload) :
    (explore next onOver probe exitAt fuel s).2 = .ok 0 ∨
    (explore next onOver probe exitAt fuel s).2 = .fuelOut :=
  exploreAux_all_overload next onOver probe exitAt hover fuel s 0

/-- Witness for the amended C10: two all-overloading probes yield `Ok 0`. -/
theorem c10_zero_default_amended_witness :
    (explore loadIterNext loadIterOver (fun _ _ => Verdict.overload)
        (fun _ => false) 10 [5, 7]).2 = .ok 0 ∨
    (explore loadIterNext loadIterOver (fun _ _ => Verdict.overload)
        (fun _ => false) 10 [5, 7]).2 = .fuelOut :=
  c10_zero_default_amended loadIterNext loadIterOver (fun _ _ => Verdict.overload)
    (fun _ => false) 10 [5, 7] (fun _ _ => rfl)

lemma searchRun_done (o : ℕ → Bool) (fuel : ℕ) (s sF : ExpCliff)
    (h : s.next = (none, sF)) :
    searchRun o (fuel + 1) s = ([], sF, true) := by
  unfold searchRun
  simp only [h]

lemma searchRun_yield (o : ℕ → Bool) (fuel : ℕ) (s : ExpCliff) (t : ℕ) (s' : ExpCliff)
    (h : s.next = (some t, s')) :
    searchRun o (fuel + 1) s
      = yieldStep t (searchRun o fuel (if o t then s'.overloaded else s')) := by
  conv_lhs => unfold searchRun
  simp only [h]

lemma feedback_false (cl tl lo : ℕ) (up la : Option ℕ) (dn : Bool) (b : Bool) :
    (if b then ExpCliff.overloaded ⟨cl, tl, lo, up, la, false, dn⟩
      else (⟨cl, tl, lo, up, la, false, dn⟩ : ExpCliff))
      = ⟨cl, tl, lo, up, la, b, dn⟩ := by
  cases b <;> rfl

lemma next_over (l u c : ℕ) (hw : ¬(c - l < 2)) :
    ((⟨1000000, 2, l, some u, some c, true, false⟩ : ExpCliff)).next
      = (some ((l + c) / 2), ⟨1000000, 2, l, some c, some ((l + c) / 2), false, false⟩) := by
  unfold ExpCliff.next
  simp [hw]

lemma next_over_done (l u c : ℕ) (hw : c - l < 2) :
    ((⟨1000000, 2, l, some u, some c, true, false⟩ : ExpCliff)).next
      = (none, ⟨1000000, 2, l, some c, none, false, true⟩) := by
  unfold ExpCliff.next
  simp [hw]

lemma next_good (l u c : ℕ) (hw : ¬(u - c < 2)) :
    ((⟨1000000, 2, l, some u, some c, false, false⟩ : ExpCliff)).next
      = (some ((c + u) / 2), ⟨1000000, 2, c, some u, some ((c + u) / 2), false, false⟩) := by
  unfold ExpCliff.next
  simp [hw]

lemma next_good_done (l u c : ℕ) (hw : u - c < 2) :
    ((⟨1000000, 2, l, some u, some c, false, false⟩ : ExpCliff)).next
      = (none, ⟨1000000, 2, c, some u, none, false, true⟩) := by
  unfold ExpCliff.next
  simp [hw]

lemma narrowRun (o : ℕ → Bool) :
    ∀ (fuel l u c : ℕ), l < c → c < u → 512 ≤ l → u ≤ 1024 → u - l ≤ fuel →
    ∃ ys sF, searchRun o fuel (⟨1000000, 2, l, some u, some c, o c, false⟩ : ExpCliff)
        = (ys, sF, true) ∧
      (∀ r ∈ ys, 512 < r ∧ r < 1024) ∧ 512 ≤ sF.lower ∧ sF.lower < 1024 := by
  intro fuel
  induction fuel with
  | zero =>
    intro l u c h1 h2 h3 h4 h5
    omega
  | succ fuel ih =>
    intro l u c h1 h2 h3 h4 h5
    cases hoc : o c with
    | true =>
      by_cases hw : c - l < 2
      · refine ⟨[], ⟨1000000, 2, l, some c, none, false, true⟩, ?_, by simp, h3,
          by show l < 1024; omega⟩
        exact searchRun_done o fuel _ _ (next_over_done l u c hw)
      · obtain ⟨ys, sF, hrun, hys, hb1, hb2⟩ :=
          ih l c ((l + c) / 2) (by omega) (by omega) h3 (by omega) (by omega)
        refine ⟨(l + c) / 2 :: ys, sF, ?_, ?_, hb1, hb2⟩
        · rw [searchRun_yield o fuel _ _ _ (next_over l u c hw),
            feedback_false 1000000 2 l (some c) (some ((l + c) / 2)) false (o ((l + c) / 2)),
            hrun]
          rfl
        · intro r hr
          rcases List.mem_cons.1 hr with h | h
          · subst h
            omega
          · exact hys r h
    | false =>
      by_cases hw : u - c < 2
      · refine ⟨[], ⟨1000000, 2, c, some u, none, false, true⟩, ?_, by simp,
          by show 512 ≤ c; omega, by show c < 1024; omega⟩
        exact searchRun_done o fuel _ _ (next_good_done l u c hw)
      · obtain ⟨ys, sF, hrun, hys, hb1, hb2⟩ :=
          ih c u ((c + u) / 2) (by omega) (by omega) (by omega) h4 (by omega)
        refine ⟨(c + u) / 2 :: ys, sF, ?_, ?_, hb1, hb2⟩
        · rw [searchRun_yield o fuel _ _ _ (next_good l u c hw),
            feedback_false 1000000 2 c (some u) (some ((c + u) / 2)) false (o ((c + u) / 2)),
            hrun]
          rfl
        · intro r hr
          rcases List.mem_cons.1 hr with h | h
          · subst h
            omega
          · exact hys r h

/-- Claim C5: for `ExponentialCliffSearcher(floor := 1, ceiling := 1000000)`
(convergence tolerance 2, the tightest that terminates on naturals), against
any oracle under which every probe up to and including target 512 succeeds
and target 1024 overloads, the yielded targets are exactly
1, 2, 4, …, 512, 1024 followed only by bisection candidates strictly inside
(512, 1024); the search converges within the step budget and the final
answer `a = lower` satisfies `512 ≤ a < 1024`. The searcher is modelled
from the spec, its module not being among the sources. -/
theorem c5_exponential_cliff (o : ℕ → Bool)
    (hgood : ∀ t, t ≤ 512 → o t = false) (hbad : o 1024 = true) :
    ∃ rest sF,
      searchRun o 600 (ExpCliff.init 1 1000000 2)
        = ([1, 2, 4, 8, 16, 32, 64, 128, 256, 512, 1024] ++ rest, sF, true) ∧
      (∀ r ∈ rest, 512 < r ∧ r < 1024) ∧
      512 ≤ sF.lower ∧ sF.lower < 1024 := by
  obtain ⟨ys, sF, hrun, hys, hb1, hb2⟩ :=
    narrowRun o 588 512 1024 768 (by omega) (by omega) (by omega) (by omega) (by omega)
  refine ⟨768 :: ys, sF, ?_, ?_, hb1, hb2⟩
  · rw [show (600:ℕ) = 599 + 1 from rfl,
      searchRun_yield o 599 (ExpCliff.init 1 1000000 2) 1
        ⟨1000000, 2, 1, none, some 1, false, false⟩ (by decide),
      feedback_false 1000000 2 1 none (some 1) false (o 1), hgood 1 (by norm_num)]
    rw [show (599:ℕ) = 598 + 1 from rfl,
      searchRun_yield o 598 ⟨1000000, 2, 1, none, some 1, false, false⟩ 2
        ⟨1000000, 2, 1, none, some 2, false, false⟩ (by decide),
      feedback_false 1000000 2 1 none (some 2) false (o 2), hgood 2 (by norm_num)]
    rw [show (598:ℕ) = 597 + 1 from rfl,
      searchRun_yield o 597 ⟨1000000, 2, 1, none, some 2, false, false⟩ 4
        ⟨1000000, 2, 2, none, some 4, false, false⟩ (by decide),
      feedback_false 1000000 2 2 none (some 4) false (o 4), hgood 4 (by norm_num)]
    rw [show (597:ℕ) = 596 + 1 from rfl,
      searchRun_yield o 596 ⟨1000000, 2, 2, none, some 4, false, false⟩ 8
        ⟨1000000, 2, 4, none, some 8, false, false⟩ (by decide),
      feedback_false 1000000 2 4 none (some 8) false (o 8), hgood 8 (by norm_num)]
    rw [show (596:ℕ) = 595 + 1 from rfl,
      searchRun_yield o 595 ⟨1000000, 2, 4, none, some 8, false, false⟩ 16
        ⟨1000000, 2, 8, none, some 16, false, false⟩ (by decide),
      feedback_false 1000000 2 8 none (some 16) false (o 16), hgood 16 (by norm_num)]
    rw [show (595:ℕ) = 594 + 1 from rfl,
      searchRun_yield o 594 ⟨1000000, 2, 8, none, some 16, false, false⟩ 32
        ⟨1000000, 2, 16, none, some 32, false, false⟩ (by decide),
      feedback_false 1000000 2 16 none (some 32) false (o 32), hgood 32 (by norm_num)]
    rw [show (594:ℕ) = 593 + 1 from rfl,
      searchRun_yield o 593 ⟨1000000, 2, 16, none, some 32, false, false⟩ 64
        ⟨1000000, 2, 32, none, some 64, false, false⟩ (by decide),
      feedback_false 1000000 2 32 none (some 64) false (o 64), hgood 64 (by norm_num)]
    rw [show (593:ℕ) = 592 + 1 from rfl,
      searchRun_yield o 592 ⟨1000000, 2, 32, none, some 64, false, false⟩ 128
        ⟨1000000, 2, 64, none, some 128, false, false⟩ (by decide),
      feedback_false 1000000 2 64 none (some 128) false (o 128), hgood 128 (by norm_num)]
    rw [show (592:ℕ) = 591 + 1 from rfl,
      searchRun_yield o 591 ⟨1000000, 2, 64, none, some 128, false, false⟩ 256
        ⟨1000000, 2, 128, none, some 256, false, false⟩ (by decide),
      feedback_false 1000000 2 128 none (some 256) false (o 256), hgood 256 (by norm_num)]
    rw [show (591:ℕ) = 590 + 1 from rfl,
      searchRun_yield o 590 ⟨1000000, 2, 128, none, some 256, false, false⟩ 512
        ⟨1000000, 2, 256, none, some 512, false, false⟩ (by decide),
      feedback_false 1000000 2 256 none (some 512) false (o 512), hgood 512 (by norm_num)]
    rw [show (590:ℕ) = 589 + 1 from rfl,
      searchRun_yield o 589 ⟨1000000, 2, 256, none, some 512, false, false⟩ 1024
        ⟨1000000, 2, 512, none, some 1024, false, false⟩ (by decide),
      feedback_false 1000000 2 512 none (some 1024) false (o 1024), hbad]
    rw [show (589:ℕ) = 588 + 1 from rfl,
      searchRun_yield o 588 ⟨1000000, 2, 512, none, some 1024, true, false⟩ 768
        ⟨1000000, 2, 512, some 1024, some 768, false, false⟩ (by decide),
      feedback_false 1000000 2 512 (some 1024) (some 768) false (o 768)]
    rw [hrun]
    rfl
  · intro r hr
    rcases List.mem_cons.1 hr with h | h
    · subst h
      omega
    · exact hys r h

set_option maxRecDepth 8192 in
/-- Witness for C5: the oracle that overloads exactly above 700 satisfies the
hypotheses, and the search runs as the theorem states. -/
theorem c5_exponential_cliff_witness :
    ∃ rest sF,
      searchRun (fun t => decide (700 < t)) 600 (ExpCliff.init 1 1000000 2)
        = ([1, 2, 4, 8, 16, 32, 64, 128, 256, 512, 1024] ++ rest, sF, true) ∧
      (∀ r ∈ rest, 512 < r ∧ r < 1024) ∧
      512 ≤ sF.lower ∧ sF.lower < 1024 :=
  c5_exponential_cliff (fun t => decide (700 < t)) (by decide) (by decide)

/-- Claim C9 (counterexample): the claim says the stem's `m` field carries the
tuple's configured memory budget and that `backend` gains an `_nj` suffix
when joins are disabled. But the experiment tuple of vote.rs line 39 has no
memory-budget or join field at all: the format string of lines 107-110
hardcodes `0m` (and `5000000a`), and the backend is exactly `partial` or
`full` — evaluating the stem for the repository's own tuples shows the
constant `0m` and no `_nj` variant. -/
theorem c9_stem_counterexample :
    fileStem 20 "skewed" 6 true 100000 = "partial.5000000a.100000t.20r.6c.0m.skewed" ∧
    fileStem 20 "skewed" 6 false 100000 = "full.5000000a.100000t.20r.6c.0m.skewed" := by
  decide

/-- Claim C9 (amended): every stem has the shape
`{backend}.5000000a.{target}t.{writeEvery}r.{clientCount}c.0m.{distribution}`
where `backend` is exactly `"partial"` or `"full"` (never an `_nj` variant)
and the article and memory fields are the constants 5000000 and 0. -/
theorem c9_stem_amended (writeEvery : ℕ) (distribution : String) (nclients : ℕ)
    (pflag : Bool) (target : ℕ) :
    ∃ backend, fileStem writeEvery distribution nclients pflag target
        = backend ++ ".5000000a." ++ Nat.repr target ++ "t." ++ Nat.repr writeEvery
          ++ "r." ++ Nat.repr nclients ++ "c.0m." ++ distribution ∧
      (backend = "partial" ∨ backend = "full") := by
  cases pflag
  · exact ⟨"full", rfl, .inr rfl⟩
  · exact ⟨"partial", rfl, .inl rfl⟩
